import Mathlib

/-!
Shallow embedding of the typescene binding engine (src/src/errors.ts, which also
holds the `Binding` / `StringFormatBinding` / `Binding.Bound` module), the
service registry (src/src/core/ManagedService.ts) and the modal controller
(src/src/ui/controllers/UIModalController.ts), together with theorems settling
the frozen claims about them.

JavaScript machine values are modelled by `JSVal`; numbers are exact rationals
extended with `NaN` and negative zero (`JSNum`), which is faithful on every
decimal literal appearing in the claims.  Fallible code returns `Except JsErr`.
-/

namespace Typescene

/-- An exact fraction `n / d` with (by construction throughout this file)
positive denominator.  Fractions are not kept normalized; value equality and
order are by cross-multiplication.  This bespoke type is used instead of `ℚ`
so that every arithmetic step reduces inside the kernel. -/
structure Frac where
  n : ℤ
  d : ℤ
deriving DecidableEq

namespace Frac

def ofInt (i : ℤ) : Frac := ⟨i, 1⟩

def ofNat (m : ℕ) : Frac := ⟨(m : ℤ), 1⟩

def add (a b : Frac) : Frac := ⟨a.n * b.d + b.n * a.d, a.d * b.d⟩

/-- Value equality `a.n / a.d = b.n / b.d` (cross-multiplied). -/
def beq (a b : Frac) : Bool := a.n * b.d = b.n * a.d

def isZero (a : Frac) : Bool := a.n = 0

def isNeg (a : Frac) : Bool := a.n < 0

def isPos (a : Frac) : Bool := a.n > 0

def neg (a : Frac) : Frac := ⟨-a.n, a.d⟩

/-- `⌊a + 1/2⌋`, the `Math.round` / `toFixed` rounding kernel (floor division
by the doubled denominator). -/
def floorAddHalf (a : Frac) : ℤ := Int.fdiv (2 * a.n + a.d) (2 * a.d)

/-- `⌊a * 10 ^ f + 1/2⌋`. -/
def scaledRound (a : Frac) (f : ℕ) : ℤ :=
  Int.fdiv (2 * a.n * (10 : ℤ) ^ f + a.d) (2 * a.d)

/-- Truncation toward zero. -/
def trunc (a : Frac) : ℤ := Int.tdiv a.n a.d

end Frac

/-- JavaScript numbers: `NaN`, negative zero, or a finite value modelled as an
exact fraction.  All numeric literals in the claims are exactly representable,
so exact arithmetic agrees with IEEE double arithmetic on them. -/
inductive JSNum where
  | nan
  | nzero
  | val (x : Frac)
deriving DecidableEq

/-- Errors thrown by the embedded code (`throw err(...)` sites in the source and
built-in JavaScript `TypeError` / `RangeError`). -/
inductive JsErr where
  | unknownFilter (fmt : String)
  | notABinding (s : String)
  | notFound (s : String)
  | parentNotFound
  | noComponent
  | objectType
  | typeError (msg : String)
  | rangeError (msg : String)
deriving DecidableEq

/-- JavaScript values reachable by the binding engine.  An `obj` carries its own
enumerable string-keyed properties plus an optional map-like `get` capability:
`getMap = some m` models an object exposing a `get(key)` method (such as
`ManagedMap.get`) whose behaviour is finite-map lookup returning `undefined`
for absent keys.  `box` models the wrapper object produced by
`_blankFormatter` (custom `toString` returning `""`, `valueOf` returning the
stored inner value). -/
inductive JSVal where
  | undefined
  | null
  | bool (b : Bool)
  | num (n : JSNum)
  | str (s : String)
  | obj (props : List (String × JSVal)) (getMap : Option (List (String × JSVal)))
  | arr (elems : List JSVal)
  | box (inner : JSVal)

namespace JSVal

/-- First-match association-list lookup, the model of plain own-property
lookup on an object literal. -/
def lookupStr (k : String) : List (String × JSVal) → Option JSVal
  | [] => none
  | (k', v) :: rest => if k' = k then some v else lookupStr k rest

end JSVal

/-- Function-valued properties inherited from `Object.prototype` by every plain
object literal (plus the `__proto__` accessor, whose value is also truthy).
`Binding.filters` is a plain object literal, so indexing it with one of these
names yields a truthy value even though the name is not a registered filter. -/
def objectProtoNames : List String :=
  ["constructor", "hasOwnProperty", "isPrototypeOf", "propertyIsEnumerable",
   "toLocaleString", "toString", "valueOf", "__defineGetter__", "__defineSetter__",
   "__lookupGetter__", "__lookupSetter__", "__proto__"]

/-- JavaScript truthiness (`!!v`). -/
def jsTruthy : JSVal → Bool
  | .undefined => false
  | .null => false
  | .bool b => b
  | .num .nan => false
  | .num .nzero => false
  | .num (.val x) => !x.isZero
  | .str s => s ≠ ""
  | .obj _ _ => true
  | .arr _ => true
  | .box _ => true

/-- Strict equality on numbers: `NaN` is unequal to everything (itself
included), and `-0 === 0`. -/
def jsNumEq : JSNum → JSNum → Bool
  | .nan, _ => false
  | _, .nan => false
  | .nzero, .nzero => true
  | .nzero, .val y => y.isZero
  | .val x, .nzero => x.isZero
  | .val x, .val y => x.beq y

/-- JavaScript strict equality (`===`).  Objects, arrays and boxes compare by
reference; the model has no sharing, so such comparisons are `false`, matching
a reader whose recomputation builds fresh structures on every call. -/
def jsStrictEq : JSVal → JSVal → Bool
  | .undefined, .undefined => true
  | .null, .null => true
  | .bool a, .bool b => a = b
  | .num a, .num b => jsNumEq a b
  | .str a, .str b => a = b
  | _, _ => false

/-- ASCII uppercase, the model of `String.prototype.toUpperCase` /
`toLocaleUpperCase` on the ASCII names appearing in this repository. -/
def jsToUpper (s : String) : String := String.mk (s.toList.map Char.toUpper)

/-- ASCII lowercase, the model of `toLocaleLowerCase`. -/
def jsToLower (s : String) : String := String.mk (s.toList.map Char.toLower)

def isJsWs (c : Char) : Bool := c = ' ' ∨ c = '\t' ∨ c = '\n' ∨ c = '\r'

/-- `String.prototype.trim` (ASCII whitespace set, which covers every input in
this repository). -/
def jsTrim (s : String) : String :=
  String.mk (((s.toList.dropWhile isJsWs).reverse.dropWhile isJsWs).reverse)

def splitOnCharAux (c : Char) : List Char → List Char → List (List Char)
  | [], acc => [acc.reverse]
  | d :: rest, acc =>
    if d = c then acc.reverse :: splitOnCharAux c rest []
    else splitOnCharAux c rest (d :: acc)

/-- `String.prototype.split` with a single-character separator (the only form
the source uses): `"a||b" ↦ ["a","","b"]`, `"" ↦ [""]`. -/
def splitOnChar (c : Char) (s : String) : List String :=
  (splitOnCharAux c s.toList []).map String.mk

/-- Value of a string of decimal digits. -/
def digitsVal (cs : List Char) : ℕ :=
  cs.foldl (fun a c => a * 10 + (c.toNat - '0'.toNat)) 0

/-- Magnitude `intDigits.fracDigits` as an exact fraction. -/
def digitsToFrac (ds fs : List Char) : Frac :=
  ⟨(digitsVal ds : ℤ) * (10 : ℤ) ^ fs.length + (digitsVal fs : ℤ), (10 : ℤ) ^ fs.length⟩

/-- Shared sign handling: `-0` parses to negative zero. -/
def signedFracNum (neg : Bool) (mag : Frac) : JSNum :=
  if neg then (if mag.isZero then .nzero else .val mag.neg) else .val mag

/-- `parseFloat` on a string: skip leading whitespace, optional sign, then the
longest prefix `digits [. digits]`; `NaN` when no digit was consumed.
(Exponent suffixes and `Infinity` never occur in this repository's inputs and
are not modelled.)  `parseFloat("-0")` is negative zero, as in JavaScript. -/
def parseFloatStr (s : String) : JSNum :=
  let cs := s.toList.dropWhile isJsWs
  let (neg, cs1) :=
    match cs with
    | '-' :: rest => (true, rest)
    | '+' :: rest => (false, rest)
    | _ => (false, cs)
  let ds := cs1.takeWhile Char.isDigit
  let cs2 := cs1.dropWhile Char.isDigit
  let fs :=
    match cs2 with
    | '.' :: rest => rest.takeWhile Char.isDigit
    | _ => []
  if ds.isEmpty ∧ fs.isEmpty then .nan
  else signedFracNum neg (digitsToFrac ds fs)

/-- `Number(string)`: full-string parse after trimming; the empty string is 0;
`"-0"` is negative zero.  (Hex and exponent forms never occur here.) -/
def numberOfString (s : String) : JSNum :=
  let cs := ((s.toList.dropWhile isJsWs).reverse.dropWhile isJsWs).reverse
  if cs.isEmpty then .val (Frac.ofInt 0)
  else
    let (neg, cs1) :=
      match cs with
      | '-' :: rest => (true, rest)
      | '+' :: rest => (false, rest)
      | _ => (false, cs)
    let ds := cs1.takeWhile Char.isDigit
    let cs2 := cs1.dropWhile Char.isDigit
    let (fs, cs3) :=
      match cs2 with
      | '.' :: rest => (rest.takeWhile Char.isDigit, rest.dropWhile Char.isDigit)
      | rest => ([], rest)
    if cs3 ≠ [] ∨ (ds.isEmpty ∧ fs.isEmpty) then .nan
    else signedFracNum neg (digitsToFrac ds fs)

/-- `Math.round`: floor of `x + 1/2` (ties toward the larger integer), except
that a negative argument rounding to zero gives negative zero, as in
JavaScript. -/
def jsRound : JSNum → JSNum
  | .nan => .nan
  | .nzero => .nzero
  | .val x =>
    let r := x.floorAddHalf
    if r = 0 ∧ x.isNeg = true then .nzero else .val (Frac.ofInt r)

def jsNumGtZero : JSNum → Bool
  | .val x => x.isPos
  | _ => false

def jsNumLtZero : JSNum → Bool
  | .val x => x.isNeg
  | _ => false

def jsNumAdd : JSNum → JSNum → JSNum
  | .nan, _ => .nan
  | _, .nan => .nan
  | .nzero, .nzero => .nzero
  | .nzero, .val y => .val y
  | .val x, .nzero => .val x
  | .val x, .val y => .val (x.add y)

/-- `ToIntegerOrInfinity` restricted to the finite values of the model:
`NaN` and `-0` become 0, other values truncate toward zero. -/
def jsToIntegerOrZero : JSNum → ℤ
  | .nan => 0
  | .nzero => 0
  | .val x => x.trunc

def padLeftZeros (cs : List Char) (n : ℕ) : List Char :=
  List.replicate (n - cs.length) '0' ++ cs

/-- Fixed-point formatting of an exact fraction with `f` fractional digits,
rounding to the nearest scaled integer and picking the larger one at ties,
exactly the `Number.prototype.toFixed` rule. -/
def fracToFixed (x : Frac) (f : ℕ) : String :=
  let n : ℤ := x.scaledRound f
  let ds := padLeftZeros (Nat.repr n.natAbs).toList (f + 1)
  let ip := ds.take (ds.length - f)
  let fp := ds.drop (ds.length - f)
  let body := if f = 0 then String.mk ip else String.mk ip ++ "." ++ String.mk fp
  if n < 0 then "-" ++ body else body

/-- `Number.prototype.toFixed`: digit count goes through `ToIntegerOrInfinity`
and must land in `[0, 100]`; `NaN` prints as `"NaN"`. -/
def jsToFixed (n : JSNum) (digits : JSNum) : Except JsErr String :=
  let f := jsToIntegerOrZero digits
  if f < 0 ∨ f > 100 then
    .error (.rangeError "toFixed() digits argument must be between 0 and 100")
  else
    match n with
    | .nan => .ok "NaN"
    | .nzero => .ok (fracToFixed (Frac.ofInt 0) f.toNat)
    | .val x => .ok (fracToFixed x f.toNat)

/-- Remove all factors `p` from `d` (fuel-driven; fuel `d` suffices). -/
def stripFac (p : ℕ) : ℕ → ℕ → ℕ × ℕ
  | 0, d => (d, 0)
  | fuel + 1, d =>
    if d % p = 0 ∧ d ≠ 0 ∧ p > 1 then
      let (d', k) := stripFac p fuel (d / p)
      (d', k + 1)
    else (d, 0)

/-- Smallest `k` with `den ∣ 10 ^ k` for a reduced denominator, when the
decimal expansion terminates. -/
def decimalExpDigits (den : ℕ) : Option ℕ :=
  let (d2, a) := stripFac 2 den den
  let (d5, b) := stripFac 5 d2 d2
  if d5 = 1 then some (max a b) else none

/-- `String(number)`.  The stored exact fraction is reduced and printed with
its full terminating expansion, which on decimal-literal values is exactly the
shortest round-trip form JavaScript prints; the non-terminating fallback is
unreachable on the inputs of this development. -/
def jsNumRepr : JSNum → String
  | .nan => "NaN"
  | .nzero => "0"
  | .val x =>
    let sgn := if x.isNeg then "-" else ""
    let g := Nat.gcd x.n.natAbs x.d.natAbs
    let nr := x.n.natAbs / g
    let dr := x.d.natAbs / g
    if dr = 1 then sgn ++ Nat.repr nr
    else
      match decimalExpDigits dr with
      | some k =>
        let m := nr * (10 : ℕ) ^ k / dr
        let ds := padLeftZeros (Nat.repr m).toList (k + 1)
        let ip := ds.take (ds.length - k)
        let fp := ds.drop (ds.length - k)
        sgn ++ String.mk ip ++ "." ++ String.mk fp
      | none => sgn ++ "0.(nonterminating)"

mutual
/-- String coercion of an array element inside `Array.prototype.toString`
(`join(",")`): `undefined` and `null` print as the empty string. -/
def jsArrElemStr : JSVal → String
  | .undefined => ""
  | .null => ""
  | .bool b => cond b "true" "false"
  | .num n => jsNumRepr n
  | .str s => s
  | .obj _ _ => "[object Object]"
  | .box _ => ""
  | .arr es => jsArrJoin es

def jsArrJoin : List JSVal → String
  | [] => ""
  | [v] => jsArrElemStr v
  | v :: vs => jsArrElemStr v ++ "," ++ jsArrJoin vs
end

/-- `String(v)` coercion.  The `box` wrapper's custom `toString` returns the
empty string. -/
def jsStringCoerce : JSVal → String
  | .undefined => "undefined"
  | .null => "null"
  | .bool b => cond b "true" "false"
  | .num n => jsNumRepr n
  | .str s => s
  | .obj _ _ => "[object Object]"
  | .box _ => ""
  | .arr es => jsArrJoin es

/-- `parseFloat(v)`: the argument is coerced to a string first. -/
def parseFloatJS (v : JSVal) : JSNum :=
  parseFloatStr (jsStringCoerce v)

/-- `Number(v)` (`ToNumber`).  A `box` converts through its `valueOf`, which
returns the stored inner value; a non-primitive inner value falls through to
the box's custom `toString`, which is the empty string (hence 0). -/
def jsToNumber : JSVal → JSNum
  | .undefined => .nan
  | .null => .val (Frac.ofInt 0)
  | .bool b => .val (Frac.ofInt (cond b 1 0))
  | .num n => n
  | .str s => numberOfString s
  | .obj _ _ => .nan
  | .arr es => numberOfString (jsArrJoin es)
  | .box i =>
    match i with
    | .obj _ _ => .val (Frac.ofInt 0)
    | .arr _ => .val (Frac.ofInt 0)
    | .box _ => .val (Frac.ofInt 0)
    | .undefined => .nan
    | .null => .val (Frac.ofInt 0)
    | .bool b => .val (Frac.ofInt (cond b 1 0))
    | .num n => n
    | .str s => numberOfString s

/-- The global `isNaN(v)`: coerce to number, test for `NaN`. -/
def jsIsNaN (v : JSVal) : Bool :=
  match jsToNumber v with
  | .nan => true
  | _ => false

/-- Canonical array-index reading of a property key (`"0"`, `"12"`, … with no
leading zero), the keys under which JavaScript stores array elements. -/
def arrayIndex? (p : String) : Option ℕ :=
  if p ≠ "" ∧ p.toList.all Char.isDigit ∧ (p = "0" ∨ p.toList.headD '0' ≠ '0') then
    some (digitsVal p.toList)
  else none

/-- Plain property access `v[p]`.  Inherited function-valued members (such as
`({}).toString`) are functions, which lie outside `JSVal`; they are modelled as
`undefined`, and every theorem below keeps such property names out of the
quantified positions it relies on. -/
def jsGetProp : JSVal → String → JSVal
  | .obj props _, p => (JSVal.lookupStr p props).getD .undefined
  | .arr es, p =>
    if p = "length" then .num (.val (Frac.ofNat es.length))
    else
      match arrayIndex? p with
      | some i => es.getD i .undefined
      | none => .undefined
  | .str s, p =>
    if p = "length" then .num (.val (Frac.ofNat s.length))
    else
      match arrayIndex? p with
      | some i =>
        match s.toList.get? i with
        | some c => .str (String.mk [c])
        | none => .undefined
      | none => .undefined
  | _, _ => .undefined

/-- The `in` operator on a plain object: own properties, the map-like `get`
method when present, and the members inherited from `Object.prototype`. -/
def jsHasPropObj (props : List (String × JSVal))
    (getMap : Option (List (String × JSVal))) (p : String) : Bool :=
  (JSVal.lookupStr p props).isSome || (getMap.isSome && p = "get")
    || objectProtoNames.contains p

def arrayProtoNames : List String :=
  ["length", "join", "map", "filter", "forEach", "indexOf", "push", "pop",
   "slice", "concat"]

/-- One step of the nested-path walk in `Reader.getValue`:
`if (!(p in result) && typeof result.get === "function") result = result.get(p);
else result = result[p];`.  Applying `in` to a primitive throws a `TypeError`
in JavaScript; the loop only reaches this step on non-`undefined`,
non-`null` values. -/
def walkStep (result : JSVal) (p : String) : Except JsErr JSVal :=
  match result with
  | .obj props getMap =>
    if jsHasPropObj props getMap p = false ∧ getMap.isSome = true then
      .ok ((JSVal.lookupStr p (getMap.getD [])).getD .undefined)
    else .ok (jsGetProp (.obj props getMap) p)
  | .arr es => .ok (jsGetProp (.arr es) p)
  | .box _ => .ok .undefined
  | _ => .error (.typeError "Cannot use in operator to search in a primitive")

/-- The nested-path loop of `Reader.getValue`: walk while the current value is
loosely different from `undefined` (so `undefined` and `null` both stop the
walk, as `result != undefined` does). -/
def walkPath : List String → JSVal → Except JsErr JSVal
  | [], r => .ok r
  | p :: ps, r =>
    match r with
    | .undefined => .ok r
    | .null => .ok r
    | v =>
      match walkStep v p with
      | .error e => .error e
      | .ok r' => walkPath ps r'

/-- `_formatNotUndefined(v, f, u)` with the default `u = v` spelled out at each
call site; the guard `v != undefined` is loose, so `null` also selects `u`. -/
def _formatNotUndefined (v : JSVal) (f : JSVal → JSVal) (u : JSVal) : JSVal :=
  match v with
  | .undefined => u
  | .null => u
  | w => f w

/-- `_floatFormatter`: `_formatNotUndefined(d, parseFloat)` — the fallback is
`d` itself (the omitted third argument defaults to `v`). -/
def _floatFormatter (d : JSVal) : JSVal :=
  _formatNotUndefined d (fun v => .num (parseFloatJS v)) d

/-- `_intFormatter`: round `_formatNotUndefined(d, parseFloat, 0)` and
normalize the non-positive, non-negative results (`-0` and `NaN`) to `0`
through `result > 0 ? result : result < 0 ? result : 0`. -/
def _intFormatter (d : JSVal) : JSVal :=
  let n : JSNum :=
    match _formatNotUndefined d (fun v => .num (parseFloatJS v)) (.num (.val (Frac.ofInt 0))) with
    | .num m => m
    | _ => .nan
  let r := jsRound n
  .num (if jsNumGtZero r then r else if jsNumLtZero r then r else .val (Frac.ofInt 0))

mutual
/-- `_stringFormatter`, the `s`/`str`/`string` filter and the `$\x7b...\x7d`
stringifier.  `typeof d === "object"` holds for `null`, plain objects, arrays
and the blank box.  The first branch tests `d.toString ===
Object.prototype.toString`: on a plain object this holds exactly when no own
`toString` property shadows the inherited one, and then the function logs a
`Binding_ObjectType` error to the unhandled-exception sink (second component)
and prints `"???"`.  An object whose own `toString` shadows the inherited one
fails both identity checks and falls through to `String(d)`; an own property
value is never callable in this model (functions lie outside `JSVal`), so
`ToPrimitive` finds no usable method (`valueOf`, own or inherited, also never
yields a primitive) and `String(d)` throws `TypeError: Cannot convert object
to primitive value`, as the source does on e.g. `{toString: 5}`.  An array
(`Array.prototype.toString` and `.map` intact) recurses and joins with
`", "`; `null` crashes on the `d.toString` member access itself. -/
def _stringFormatter : JSVal → Except JsErr (String × List JsErr)
  | .null => .error (.typeError "Cannot read properties of null (reading toString)")
  | .obj props _ =>
    match JSVal.lookupStr "toString" props with
    | none => .ok ("???", [.objectType])
    | some _ => .error (.typeError "Cannot convert object to primitive value")
  | .arr es =>
    match _stringFormatterList es with
    | .error e => .error e
    | .ok (ss, logs) => .ok (String.intercalate ", " ss, logs)
  | .undefined => .ok ("", [])
  | .box _ => .ok ("", [])
  | .bool b => .ok (cond b "true" "false", [])
  | .num n => .ok (jsNumRepr n, [])
  | .str s => .ok (s, [])

def _stringFormatterList : List JSVal → Except JsErr (List String × List JsErr)
  | [] => .ok ([], [])
  | v :: vs =>
    match _stringFormatter v with
    | .error e => .error e
    | .ok (s, l1) =>
      match _stringFormatterList vs with
      | .error e => .error e
      | .ok (ss, l2) => .ok (s :: ss, l1 ++ l2)
end

mutual
/-- The values on which `_stringFormatter` returns without throwing:
everything except `null` and plain objects with an own `toString` entry, at
the top level or nested inside arrays (the only positions the function
recurses into; boxes and object properties are not descended). -/
def stringSafe : JSVal → Bool
  | .null => false
  | .obj props _ => (JSVal.lookupStr "toString" props).isNone
  | .arr es => stringSafeList es
  | _ => true

def stringSafeList : List JSVal → Bool
  | [] => true
  | v :: vs => stringSafe v && stringSafeList vs
end

/-- Whether a fallible computation returned normally. -/
def exceptOk {ε α : Type} : Except ε α → Bool
  | .ok _ => true
  | .error _ => false

/-- `_ucFormatter`: `result && result.toLocaleUpperCase()` — the empty string
is falsy and is returned unchanged. -/
def _ucFormatter (d : JSVal) : Except JsErr JSVal := do
  let (s, _) ← _stringFormatter d
  .ok (.str (if s = "" then s else jsToUpper s))

def _lcFormatter (d : JSVal) : Except JsErr JSVal := do
  let (s, _) ← _stringFormatter d
  .ok (.str (if s = "" then s else jsToLower s))

/-- `_blankFormatter`: take `valueOf` of the input when available (`undefined`
and `null` are kept as-is; a box unwraps; primitives and plain structures are
their own `valueOf`), then wrap in the blank box whose `toString` is empty. -/
def _blankFormatter (d : JSVal) : JSVal :=
  let d' :=
    match d with
    | .undefined => JSVal.undefined
    | .null => JSVal.null
    | .box i => i
    | v => v
  .box d'

/-- `_decimalFormatter(n, decimals)` translated line by line:
empty string for `undefined` or NaN-coercible input, then
`(+(parseFloat(n).toFixed(decimals + 1) + "1")).toFixed(decimals)`. -/
def _decimalFormatter (n : JSVal) (arg : Option String) : Except JsErr JSVal := do
  match n with
  | .undefined => .ok (.str "")
  | v =>
    if jsIsNaN v then .ok (.str "")
    else
      let decimals := jsToNumber (match arg with | some a => .str a | none => .undefined)
      let s1 ← jsToFixed (parseFloatJS v) (jsNumAdd decimals (.val (Frac.ofInt 1)))
      let s2 ← jsToFixed (numberOfString (s1 ++ "1")) decimals
      .ok (.str s2)

/-- The `d.filter(...)` pass of `_uniqueFormatter`: drop loose-`undefined`
values, deduplicate strings through the `strings` dictionary and other
primitives through `values.indexOf` (strict equality, so `NaN` is always
kept); objects compare by reference and are always kept, since every model
structure stands for a fresh reference. -/
def _uniqueFormatterGo : List JSVal → List String → List JSVal → List JSVal
  | [], _, _ => []
  | v :: vs, seenS, seenP =>
    match v with
    | .undefined => _uniqueFormatterGo vs seenS seenP
    | .null => _uniqueFormatterGo vs seenS seenP
    | .str s =>
      if seenS.contains s then _uniqueFormatterGo vs seenS seenP
      else .str s :: _uniqueFormatterGo vs (s :: seenS) seenP
    | .num .nan => .num .nan :: _uniqueFormatterGo vs seenS seenP
    | .num m =>
      if seenP.any (fun w => jsStrictEq w (.num m)) then _uniqueFormatterGo vs seenS seenP
      else .num m :: _uniqueFormatterGo vs seenS (.num m :: seenP)
    | .bool b =>
      if seenP.any (fun w => jsStrictEq w (.bool b)) then _uniqueFormatterGo vs seenS seenP
      else .bool b :: _uniqueFormatterGo vs seenS (.bool b :: seenP)
    | w => w :: _uniqueFormatterGo vs seenS seenP

/-- `_uniqueFormatter`: non-arrays pass through.  (The `ManagedList` branch
converts a managed list to an array first; `ManagedList` itself is not under
src/ and managed-list inputs are outside this model.) -/
def _uniqueFormatter (d : JSVal) : JSVal :=
  match d with
  | .arr es => .arr (_uniqueFormatterGo es [] [])
  | v => v

/-- `_pluckFormatter`: `d.map(v => v && v[p])` on arrays, anything else passes
through.  An omitted argument indexes with the string `"undefined"` after
JavaScript key coercion. -/
def _pluckFormatter (d : JSVal) (arg : Option String) : JSVal :=
  match d with
  | .arr es =>
    .arr (es.map (fun v => if jsTruthy v then jsGetProp v (arg.getD "undefined") else v))
  | v => v

/-- A filter as stored by `addFilter`: the raw value and the parsed
parenthesized argument (`undefined` when absent). -/
def FilterFn : Type := JSVal → Option String → Except JsErr JSVal

def pureFilter (f : JSVal → JSVal) : FilterFn := fun v _ => .ok (f v)

/-- The `or(...)` filter: `(v, alt) => v || alt`. -/
def orFilter : FilterFn := fun v arg =>
  .ok (if jsTruthy v then v else match arg with | some a => .str a | none => .undefined)

/-- The `then(...)` filter: `(v, str) => (v && str) || undefined`. -/
def thenFilter : FilterFn := fun v arg =>
  let w := if jsTruthy v then (match arg with | some a => JSVal.str a | none => .undefined) else v
  .ok (if jsTruthy w then w else .undefined)

/-- Modelled from the spec: the external i18n collaborator `tt(value, type?)`
(src/src/core/I18nService is not under src/, "an i18n translation function
tt(value, type?)"); treated as an opaque passthrough — no claim depends on its
value-level behaviour. -/
def ttFilter : FilterFn := fun v _ => .ok v

/-- Own keys of the `Binding.filters` object literal, each mapped to its
formatter. -/
def Binding.filters : String → Option FilterFn
  | "!" => some (pureFilter (fun v => .bool (!jsTruthy v)))
  | "not?" => some (pureFilter (fun v => .bool (!jsTruthy v)))
  | "?" => some (pureFilter (fun v => .bool (jsTruthy v)))
  | "!!" => some (pureFilter (fun v => .bool (jsTruthy v)))
  | "or" => some orFilter
  | "then" => some thenFilter
  | "tt" => some ttFilter
  | "s" | "str" | "string" =>
    some (fun v _ => do let (s, _) ← _stringFormatter v; .ok (.str s))
  | "uc" => some (fun v _ => _ucFormatter v)
  | "lc" => some (fun v _ => _lcFormatter v)
  | "blank" | "_" => some (pureFilter _blankFormatter)
  | "n" | "num" | "number" => some (pureFilter _floatFormatter)
  | "i" | "int" | "integer" => some (pureFilter _intFormatter)
  | "dec" => some _decimalFormatter
  | "uniq" => some (pureFilter _uniqueFormatter)
  | "pluck" => some (fun v arg => .ok (_pluckFormatter v arg))
  | _ => none

/-- What `Binding.filters[name]` evaluates to when `name` is a member
inherited from `Object.prototype` (the registry is a plain object literal, so
such lookups are truthy): calling the inherited member as a bare function in
strict mode has `this === undefined`, so `toString` yields
`"[object Undefined]"` and the others throw.  No claim evaluates these. -/
def inheritedProtoFilter (name : String) : FilterFn := fun _ _ =>
  if name = "toString" then .ok (.str "[object Undefined]")
  else .error (.typeError "inherited Object.prototype member called as filter")

/-- The binding compiled by the `Binding` constructor: top property name,
nested path, chained filter, default value.  (`Reader` closes over exactly
these four pieces.) -/
structure Binding where
  propertyName : Option String
  path : Option (List String)
  filter : Option (JSVal → Except JsErr JSVal)
  defaultValue : Option JSVal

/-- Chaining step shared by `addFilter`: the previous filter runs first, the
new one on its result. -/
def Binding.chain (b : Binding) (f : FilterFn) (arg : Option String) : Binding :=
  { b with
    filter := some (fun v => do
      let v ←
        match b.filter with
        | some old => old v
        | none => .ok v
      f v arg) }

/-- JavaScript `String.prototype.indexOf` for a single character: position of
the first occurrence, `-1` when absent. -/
def jsIndexOfChar (s : String) (c : Char) : Int :=
  match s.toList.findIdx? (fun d => d = c) with
  | some i => (i : Int)
  | none => -1

/-- `Binding.addFilter(fmt)`: trim, split a trailing parenthesized argument
off (only when `(` is not the first character and the segment ends in `)`),
look the name up in the `filters` object — a plain literal, so inherited
`Object.prototype` members are also found and are truthy — and throw
`Binding_UnknownFilter` exactly when the lookup is falsy. -/
def Binding.addFilter (b : Binding) (fmt0 : String) : Except JsErr Binding :=
  let fmt1 := jsTrim fmt0
  let argIdx := jsIndexOfChar fmt1 '('
  let (fmt2, arg) :=
    if argIdx > 0 ∧ fmt1.toList.getLast? = some ')' then
      let cs := fmt1.toList
      (jsTrim (String.mk (cs.take argIdx.toNat)),
        some (jsTrim (String.mk ((cs.drop (argIdx.toNat + 1)).dropLast))))
    else (fmt1, none)
  match Binding.filters fmt2 with
  | some f => .ok (b.chain f arg)
  | none =>
    if objectProtoNames.contains fmt2 then .ok (b.chain (inheritedProtoFilter fmt2) arg)
    else .error (.unknownFilter fmt2)

/-- The `while (propertyName[0] === "!")` loop: count and strip leading bangs
(an exhausted string stops the loop, since `""[0]` is `undefined`). -/
def stripBangs : List Char → ℕ × List Char
  | '!' :: rest =>
    let (n, r) := stripBangs rest
    (n + 1, r)
  | cs => (0, cs)

def applyBangs : Binding → ℕ → Except JsErr Binding
  | b, 0 => .ok b
  | b, n + 1 => do applyBangs (← b.addFilter "!") n

def foldFilters (b : Binding) : List String → Except JsErr Binding
  | [] => .ok b
  | p :: ps => do foldFilters (← b.addFilter p) ps

/-- The `Binding` constructor: split the source on `|`, the first part on `.`;
the first dotted segment (bangs stripped, each adding a `!` filter) is the
observed top property, the remaining dotted segments the nested path
(`undefined` when empty), and each further pipe part is added as a filter.
Filter errors surface synchronously, so construction is fallible. -/
def Binding.make (source : Option String) (defaultValue : Option JSVal) :
    Except JsErr Binding :=
  match source with
  | none => .ok { propertyName := none, path := none, filter := none, defaultValue }
  | some src => do
    let parts := splitOnChar '|' src
    let path0 := splitOnChar '.' (parts.headD "")
    let (bangs, pnChars) := stripBangs (path0.headD "").toList
    let b0 : Binding :=
      { propertyName := some (String.mk pnChars), path := none, filter := none, defaultValue }
    let b1 ← applyBangs b0 bangs
    let rest := path0.tail
    let b2 := { b1 with path := if rest.isEmpty then none else some rest }
    foldFilters b2 parts.tail

/-- `Reader.getValue(propertyHint?)`: take the hint when one was passed (the
source tests `arguments.length`, so an explicitly passed `undefined` counts),
otherwise read the top property off the bound parent by plain indexing; then
walk the nested path, apply the filter chain, and substitute the default when
the final value is strictly `undefined` and a default exists. -/
def Binding.readerGetValue (b : Binding) (boundParent : JSVal) (hint : Option JSVal) :
    Except JsErr JSVal :=
  let start :=
    match hint with
    | some h => h
    | none =>
      match b.propertyName with
      | some p => jsGetProp boundParent p
      | none => JSVal.undefined
  match (match b.path with | some ps => walkPath ps start | none => .ok start) with
  | .error e => .error e
  | .ok walked =>
    match (match b.filter with | some f => f walked | none => .ok walked) with
    | .error e => .error e
    | .ok filtered =>
      .ok (match filtered, b.defaultValue with
        | .undefined, some d => d
        | r, _ => r)

/-- Observable behaviour of one consumer component's uniquely named update
hook `component[binding.id](value)`: it accepts the value, throws, or is
missing (`typeof component[id] !== "function"`). -/
inductive ConsumerBehavior where
  | accepts
  | throwsHook (e : JsErr)
  | noHook
deriving DecidableEq

structure Consumer where
  cid : ℕ
  behavior : ConsumerBehavior
deriving DecidableEq

/-- The error that one consumer's update routes to the logging sink, if any. -/
def hookError (c : Consumer) : Option JsErr :=
  match c.behavior with
  | .accepts => none
  | .throwsHook e => some e
  | .noHook => some .noComponent

/-- Deliveries made by the `forEach` loop of `updateComponents`: each consumer
is invoked inside its own try/catch, so exactly the consumers whose hook
accepts receive `(consumer id, value)`, in list order. -/
def notifyDeliveries (cs : List Consumer) (value : JSVal) : List (ℕ × JSVal) :=
  match cs with
  | [] => []
  | c :: rest =>
    match c.behavior with
    | .accepts => (c.cid, value) :: notifyDeliveries rest value
    | _ => notifyDeliveries rest value

/-- Errors routed to `logUnhandledException` by the same loop, in list order:
a missing hook throws `Binding_NoComponent` inside the try, a throwing hook
its own error; both are caught and logged. -/
def notifyLogs (cs : List Consumer) : List JsErr :=
  match cs with
  | [] => []
  | c :: rest =>
    match hookError c with
    | some e => e :: notifyLogs rest
    | none => notifyLogs rest

/-- `Binding.Bound`: the consumer list (a `ManagedList<Component>`, modelled
as a plain list — `ManagedList` is not under src/, only `count` and `forEach`
are used here), the reader's closure data (`binding`, `boundParent`), the
optional parent `Bound` (presence only; the claims below all concern bounds
without a parent, for which the delegation branch never runs), and the value
cache (`_updatedValue`, `_lastValue`). -/
structure Bound where
  binding : Binding
  boundParent : JSVal
  consumers : List Consumer
  hasParent : Bool
  updatedValue : Bool
  lastValue : JSVal

/-- `hasValue(): return !!this._updatedValue`. -/
def Bound.hasValue (b : Bound) : Bool := b.updatedValue

/-- `updateComponents(_v?)` translated branch by branch: detached bounds (no
consumers, no parent) only invalidate the cache; otherwise the reader
recomputes (the hint is spread through, `arguments.length` preserved), the
strict-inequality short-circuit guards the update, a parent bound is updated
instead of local consumers, and otherwise every consumer is notified with
per-consumer error isolation.  Result: new state, deliveries, logged errors. -/
def Bound.updateComponents (b : Bound) (hint : Option JSVal) :
    Except JsErr (Bound × List (ℕ × JSVal) × List JsErr) :=
  if b.consumers.isEmpty = true ∧ b.hasParent = false then
    .ok ({ b with updatedValue := false }, [], [])
  else
    match b.binding.readerGetValue b.boundParent hint with
    | .error e => .error e
    | .ok value =>
      if b.updatedValue = false ∨ jsStrictEq b.lastValue value = false then
        if b.hasParent then
          -- `this.parent.updateComponents(); return;` — the parent recomputes
          -- from its own reader; no local consumer is notified.
          .ok ({ b with updatedValue := true, lastValue := value }, [], [])
        else
          .ok ({ b with updatedValue := true, lastValue := value },
            notifyDeliveries b.consumers value, notifyLogs b.consumers)
      else
        .ok (b, [], [])

/-- A service instance: identity plus the immutable `name` set by the
constructor. -/
structure ManagedService where
  sid : ℕ
  name : String
deriving DecidableEq

/-- Modelled from the spec: a `ManagedReference` slot (`ManagedReference` is
not under src/) — "zero-or-one slot referencing a managed object, with
optional type restriction and optional event propagation flag".  `restricted`
records `.restrict(ManagedService)`, `propagate` records `.propagateEvents()`. -/
structure ServiceRef where
  target : Option ℕ
  restricted : Bool
  propagate : Bool
deriving DecidableEq

/-- Modelled from the spec: the singleton `ServiceContainer`'s
`ManagedMap<ManagedReference<ManagedService>>` ("process-wide name-to-instance
mapping backed by a managed map"), as an association list keyed by uppercased
name with first-match lookup. -/
structure ServiceContainer where
  services : List (String × ServiceRef)
deriving DecidableEq

def alistLookup {α : Type} (k : String) : List (String × α) → Option α
  | [] => none
  | (k', v) :: rest => if k' = k then some v else alistLookup k rest

/-- In-place mutation of the reference object held under key `k` (setting
`ref.target` mutates the slot the map already holds). -/
def alistUpdate {α : Type} (k : String) (f : α → α) :
    List (String × α) → List (String × α)
  | [] => []
  | (k', v) :: rest =>
    if k' = k then (k', f v) :: rest else (k', v) :: alistUpdate k f rest

/-- `ManagedService.register()`: uppercase the name, reject a blank result;
an existing reference gets its target replaced in place (the reference's
ownership semantics destroy the prior occupant), a missing one is created as a
new restricted, event-propagating reference holding this service. -/
def ManagedService.register (s : ManagedService) (c : ServiceContainer) :
    Except String ServiceContainer :=
  let ucName := jsToUpper s.name
  if ucName = "" then .error "[Service] Service name cannot be blank"
  else
    match alistLookup ucName c.services with
    | some _ =>
      .ok ⟨alistUpdate ucName (fun r => { r with target := some s.sid }) c.services⟩
    | none =>
      .ok ⟨c.services ++ [(ucName, ⟨some s.sid, true, true⟩)]⟩

/-- `ManagedService.find(name)`: uppercase the name, look the reference up,
and return `ref && ref.target`. -/
def ManagedService.find (name : String) (c : ServiceContainer) : Option ℕ :=
  (alistLookup (jsToUpper name) c.services).bind (fun r => r.target)

/-- Render output as handled by the modal controller's `callbackProxy`:
`element` models the truthiness of `output.element`, the remaining fields are
the placement/shade metadata the proxy decorates. -/
structure MCRenderOutput where
  element : Bool
  modalShadeClickToClose : Option Bool
  modalShadeOpacity : Option Frac
  placement : Option ℕ
  placementRef : Option ℕ
deriving DecidableEq

/-- `UIModalController` state: whether a preset modal class is set on the
prototype (`_ModalClass`), the `modal` managed-child reference (a freshly
constructed instance is modelled by the fresh identifier `nextId`), the
placement/shade presets, the observer's `_renderCallback` slot (present or
cleared) and the reference component used for placement. -/
structure UIModalController where
  hasModalClass : Bool
  modal : Option ℕ
  nextId : ℕ
  placement : ℕ
  modalShadeOpacity : Option Frac
  modalShadeClickToClose : Bool
  renderCallbackSet : Bool
  refComponent : Option ℕ
deriving DecidableEq

/-- A child event as seen by the handler installed in the constructor:
`component name` models a `ComponentEvent` with that name, `other` any other
managed event. -/
inductive MCEvent where
  | component (name : String)
  | other
deriving DecidableEq

/-- `showModal()`: `if (this._ModalClass) this.modal = new this._ModalClass()`
— the fresh identifier stands for the newly constructed instance of the preset
modal class. -/
def UIModalController.showModal (c : UIModalController) : UIModalController :=
  if c.hasModalClass then { c with modal := some c.nextId, nextId := c.nextId + 1 }
  else c

/-- `closeModal()`: `this.modal = undefined`. -/
def UIModalController.closeModal (c : UIModalController) : UIModalController :=
  { c with modal := none }

/-- Modelled from the spec for the dispatch plumbing only
(`Component.propagateChildEvents` is not under src/: a handler returning the
event propagates it, returning `undefined` swallows it); the branches are the
handler installed by the `UIModalController` constructor. -/
def UIModalController.handleChildEvent (c : UIModalController) (e : MCEvent) :
    UIModalController × Option MCEvent :=
  match e with
  | .component n =>
    if n = "ShowModal" then (c.showModal, none)
    else if n = "CloseModal" then (c.closeModal, none)
    else (c, some e)
  | .other => (c, none)

/-- The first-render decoration in `callbackProxy`: fill
`modalShadeClickToClose`, `modalShadeOpacity` and (falsy check) `placement` /
`placementRef` from the controller when the output does not set them. -/
def decorateOutput (c : UIModalController) (o : MCRenderOutput) : MCRenderOutput :=
  let o1 :=
    if o.modalShadeClickToClose = none then
      { o with modalShadeClickToClose := some c.modalShadeClickToClose }
    else o
  let o2 :=
    if o1.modalShadeOpacity = none then { o1 with modalShadeOpacity := c.modalShadeOpacity }
    else o1
  if o2.placement = none ∨ o2.placement = some 0 then
    { o2 with placement := some c.placement, placementRef := c.refComponent }
  else o2

/-- One invocation of `callbackProxy(output, afterRender)`.  A cleared
`_renderCallback` makes the proxy a no-op; output with a truthy `element` is
decorated and forwarded to the underlying render-context callback; undefined
output (or output without an element) tears down: the underlying callback is
invoked with `undefined` and `this.controller.modal` is cleared.  `nextCb`
models the next-callback return value of the external underlying callback. -/
def UIModalController.invokeCallbackProxy (c : UIModalController)
    (output : Option MCRenderOutput) (nextCb : Bool) :
    UIModalController × Option MCRenderOutput :=
  if c.renderCallbackSet = false then (c, none)
  else
    match output with
    | some o =>
      if o.element then
        ({ c with renderCallbackSet := nextCb }, some (decorateOutput c o))
      else ({ c with renderCallbackSet := nextCb, modal := none }, none)
    | none => ({ c with renderCallbackSet := nextCb, modal := none }, none)

/-! Concrete instances used by the witness theorems. -/

/-- A minimal compiled binding reading the top property `x`. -/
def bindX : Binding :=
  { propertyName := some "x", path := none, filter := none, defaultValue := none }

/-- A bound parent whose `x` property is the number 1. -/
def parentX1 : JSVal := .obj [("x", .num (.val (Frac.ofInt 1)))] none

/-- Bound instance with one accepting consumer and a stale cache. -/
def boundOneConsumer : Bound :=
  { binding := bindX, boundParent := parentX1, consumers := [⟨0, .accepts⟩],
    hasParent := false, updatedValue := false, lastValue := .undefined }

/-- `boundOneConsumer` after its first update delivered the value 1. -/
def boundOneConsumerUpd : Bound :=
  { boundOneConsumer with updatedValue := true, lastValue := .num (.val (Frac.ofInt 1)) }

/-- Bound instance whose middle consumer's update hook throws. -/
def boundFaultyMiddle : Bound :=
  { binding := bindX, boundParent := parentX1,
    consumers := [⟨0, .accepts⟩, ⟨1, .throwsHook (.typeError "boom")⟩, ⟨2, .accepts⟩],
    hasParent := false, updatedValue := false, lastValue := .undefined }

/-- `boundFaultyMiddle` after the update stored the value 1. -/
def boundFaultyMiddleUpd : Bound :=
  { boundFaultyMiddle with updatedValue := true, lastValue := .num (.val (Frac.ofInt 1)) }

/-- A compiled binding reading `x.y` (top property `x`, nested path `y`). -/
def bindXY : Binding :=
  { propertyName := some "x", path := some ["y"], filter := none, defaultValue := none }

/-- Detached bound instance (no consumers, no parent) whose reader would even
throw if it were consulted (its path steps through a primitive), holding a
stale cached value. -/
def boundDetached : Bound :=
  { binding := bindXY,
    boundParent := .obj [("x", .num (.val (Frac.ofInt 5)))] none,
    consumers := [], hasParent := false, updatedValue := true, lastValue := .str "stale" }

/-- Modal controller with a preset modal class and an active render callback. -/
def modalCtl : UIModalController :=
  { hasModalClass := true, modal := none, nextId := 7, placement := 3,
    modalShadeOpacity := none, modalShadeClickToClose := true,
    renderCallbackSet := true, refComponent := some 9 }

/-! Helper lemmas. -/

theorem mem_notifyDeliveries {cs : List Consumer} {c : Consumer} (v : JSVal)
    (hmem : c ∈ cs) (hacc : c.behavior = .accepts) :
    (c.cid, v) ∈ notifyDeliveries cs v := by
  induction cs with
  | nil => cases hmem
  | cons a l ih =>
    rcases List.mem_cons.mp hmem with h | h
    · subst h
      simp [notifyDeliveries, hacc]
    · have hm := ih h
      cases hb : a.behavior <;> simp [notifyDeliveries, hb, hm]

theorem mem_notifyLogs {cs : List Consumer} {c : Consumer} {e : JsErr}
    (hmem : c ∈ cs) (he : hookError c = some e) :
    e ∈ notifyLogs cs := by
  induction cs with
  | nil => cases hmem
  | cons a l ih =>
    rcases List.mem_cons.mp hmem with h | h
    · subst h
      simp [notifyLogs, he]
    · have hm := ih h
      cases hb : hookError a <;> simp [notifyLogs, hb, hm]

theorem alistLookup_update_self {α : Type} (k : String) (f : α → α)
    (l : List (String × α)) :
    alistLookup k (alistUpdate k f l) = (alistLookup k l).map f := by
  induction l with
  | nil => rfl
  | cons p rest ih =>
    obtain ⟨k', v⟩ := p
    by_cases h : k' = k
    · simp [alistUpdate, alistLookup, h]
    · simp [alistUpdate, alistLookup, h, ih]

theorem alistUpdate_length {α : Type} (k : String) (f : α → α)
    (l : List (String × α)) :
    (alistUpdate k f l).length = l.length := by
  induction l with
  | nil => rfl
  | cons p rest ih =>
    obtain ⟨k', v⟩ := p
    by_cases h : k' = k <;> simp [alistUpdate, h, ih]

theorem alistLookup_append_of_none {α : Type} {k : String} {l : List (String × α)}
    (v : α) (h : alistLookup k l = none) :
    alistLookup k (l ++ [(k, v)]) = some v := by
  induction l with
  | nil => simp [alistLookup]
  | cons p rest ih =>
    obtain ⟨k', w⟩ := p
    by_cases hk : k' = k
    · simp [alistLookup, hk] at h
    · simp only [alistLookup, List.cons_append, if_neg hk] at h ⊢
      exact ih h

/-! The claims. -/

/-- C1, counterexample.  The claim says the reader's `getValue`, called
without a hint, falls back to `boundParent.get(propertyName)` for the top
property when direct lookup fails.  Binding `"x"` bound to a parent with no
own property `x` but a `get` capability mapping `"x"` to 42 refutes it: the
source reads the top property by plain indexing only
(`(this.boundParent as any)[propertyName]`), so `getValue` yields `undefined`,
not 42. -/
theorem c1_top_get_counterexample :
    (do
      let b ← Binding.make (some "x") none
      b.readerGetValue (.obj [] (some [("x", .num (.val (Frac.ofInt 42)))])) none)
      = Except.ok JSVal.undefined ∧
    JSVal.undefined ≠ JSVal.num (.val (Frac.ofInt 42)) :=
  ⟨rfl, fun h => JSVal.noConfusion h⟩

/-- C1, amended.  The capability-based `get` accessor is consulted for nested
path segments only: (a) the top property is read by plain property lookup, so
a parent without own property `p` yields `undefined` even when it exposes a
`get` capability (whatever that capability maps `p` to); (b) a nested segment
`q` missing from the current value is resolved through the value's `get`
capability when one exists. -/
theorem c1_top_direct_nested_get :
    (∀ (props gm : List (String × JSVal)) (p : String),
      JSVal.lookupStr p props = none →
      Binding.readerGetValue ⟨some p, none, none, none⟩ (.obj props (some gm)) none
        = Except.ok .undefined) ∧
    (∀ (parent : JSVal) (p q : String) (mp gmq : List (String × JSVal)),
      jsGetProp parent p = .obj mp (some gmq) →
      JSVal.lookupStr q mp = none →
      q ≠ "get" →
      q ∉ objectProtoNames →
      Binding.readerGetValue ⟨some p, some [q], none, none⟩ parent none
        = Except.ok ((JSVal.lookupStr q gmq).getD .undefined)) := by
  constructor
  · intro props gm p hp
    simp [Binding.readerGetValue, jsGetProp, hp]
  · intro parent p q mp gmq hges hq hqget hqproto
    simp [Binding.readerGetValue, hges, walkPath, walkStep, jsHasPropObj, hq,
      hqget, hqproto]

/-- C1 amended, witness: parent with a top `get` capability but no own `x`
yields `undefined`; a map-like nested value resolves `y` through `get`. -/
theorem c1_top_direct_nested_get_witness :
    Binding.readerGetValue ⟨some "x", none, none, none⟩
      (.obj [] (some [("x", .num (.val (Frac.ofInt 42)))])) none = Except.ok .undefined ∧
    Binding.readerGetValue ⟨some "x", some ["y"], none, none⟩
      (.obj [("x", .obj [] (some [("y", .num (.val (Frac.ofInt 7)))]))] none) none
      = Except.ok (.num (.val (Frac.ofInt 7))) := by
  constructor
  · exact c1_top_direct_nested_get.1 [] [("x", .num (.val (Frac.ofInt 42)))] "x" rfl
  · exact c1_top_direct_nested_get.2
      (.obj [("x", .obj [] (some [("y", .num (.val (Frac.ofInt 7)))]))] none)
      "x" "y" [] [("y", .num (.val (Frac.ofInt 7)))] rfl rfl
      (by decide) (by decide)

/-- C4.  The binding compiled from `"count|i|dec(2)"`, read against a parent
whose `count` property is 3.7, produces the string `"4.00"`: the `i` filter
(`Math.round`) runs first, giving 4, then `dec(2)` formats with two fixed
decimals — pipe segments compose left to right. -/
theorem c4_pipeline_count_int_dec :
    (do
      let b ← Binding.make (some "count|i|dec(2)") none
      b.readerGetValue (.obj [("count", .num (.val ⟨37, 10⟩))] none) none)
      = Except.ok (JSVal.str "4.00") := rfl

/-- C6.  `_intFormatter(undefined) === 0`; `_intFormatter(-0.4) === 0`, where
`Math.round(-0.4)` is negative zero and the `result > 0 ? … : result < 0 ? …
: 0` normalization turns it into positive zero; `_intFormatter(2.6) === 3`. -/
theorem c6_int_formatter_values :
    _intFormatter .undefined = .num (.val (Frac.ofInt 0)) ∧
    jsRound (.val ⟨-2, 5⟩) = .nzero ∧
    _intFormatter (.num (.val ⟨-2, 5⟩)) = .num (.val (Frac.ofInt 0)) ∧
    _intFormatter (.num (.val ⟨13, 5⟩)) = .num (.val (Frac.ofInt 3)) :=
  ⟨rfl, rfl, rfl, rfl⟩

/-- C9.  The claim's "throws `UnknownFilter` iff the name is not a key of the
registry" fails in one direction: `Binding.filters` is a plain object literal,
so looking up a member inherited from `Object.prototype` — here `toString` —
yields a truthy function and `addFilter` installs it instead of throwing.
Construction from `"x|toString"` therefore succeeds, while a genuinely unknown
name such as `"qqq"` does throw `Binding_UnknownFilter` synchronously. -/
theorem c9_unknown_filter_proto_leak :
    (∃ b, Binding.make (some "x|toString") none = Except.ok b) ∧
    Binding.make (some "x|qqq") none = Except.error (.unknownFilter "qqq") := by
  constructor
  · exact ⟨_, rfl⟩
  · rfl

/-- C10, counterexample.  `_stringFormatter` is claimed never to throw, with
`null` mapping to the empty string; but `typeof null === "object"`, so the
source immediately reads `null.toString` and crashes with a `TypeError`. -/
theorem c10_string_formatter_null_throws :
    _stringFormatter .null =
      Except.error (.typeError "Cannot read properties of null (reading toString)") := rfl

mutual
/-- `_stringFormatter` returns normally exactly on `stringSafe` values: the
only throw sites are `null` and plain objects with an own `toString`, at the
top level or nested in arrays. -/
theorem stringFormatter_ok_eq : (v : JSVal) →
    exceptOk (_stringFormatter v) = stringSafe v
  | .undefined => by simp [_stringFormatter, stringSafe, exceptOk]
  | .null => by simp [_stringFormatter, stringSafe, exceptOk]
  | .bool b => by simp [_stringFormatter, stringSafe, exceptOk]
  | .num n => by simp [_stringFormatter, stringSafe, exceptOk]
  | .str s => by simp [_stringFormatter, stringSafe, exceptOk]
  | .box i => by simp [_stringFormatter, stringSafe, exceptOk]
  | .obj props gm => by
    cases h : JSVal.lookupStr "toString" props <;>
      simp [_stringFormatter, stringSafe, exceptOk, h]
  | .arr es => by
    have h := stringFormatterList_ok_eq es
    cases hl : _stringFormatterList es with
    | error e =>
      rw [hl] at h
      simp [_stringFormatter, stringSafe, exceptOk, hl, ← h]
    | ok p =>
      rw [hl] at h
      obtain ⟨ss, logs⟩ := p
      simp [_stringFormatter, stringSafe, exceptOk, hl, ← h]

theorem stringFormatterList_ok_eq : (es : List JSVal) →
    exceptOk (_stringFormatterList es) = stringSafeList es
  | [] => by simp [_stringFormatterList, stringSafeList, exceptOk]
  | v :: vs => by
    have h1 := stringFormatter_ok_eq v
    have h2 := stringFormatterList_ok_eq vs
    cases hv : _stringFormatter v with
    | error e =>
      rw [hv] at h1
      simp [_stringFormatterList, stringSafeList, exceptOk, hv, ← h1]
    | ok p =>
      rw [hv] at h1
      obtain ⟨s, l1⟩ := p
      cases hvs : _stringFormatterList vs with
      | error e =>
        rw [hvs] at h2
        simp [_stringFormatterList, stringSafeList, exceptOk, hv, hvs, ← h1, ← h2]
      | ok q =>
        rw [hvs] at h2
        obtain ⟨ss, l2⟩ := q
        simp [_stringFormatterList, stringSafeList, exceptOk, hv, hvs, ← h1, ← h2]
end

/-- C10, amended.  `_stringFormatter` throws precisely on `null` (a
`TypeError` reading `null.toString`) and on plain objects whose own
`toString` shadows the inherited `Object.prototype.toString` (where
`String(d)` cannot convert the object to a primitive), whether at the top
level or nested inside an array; on every other value it returns normally:
`undefined` maps to the empty string, a plain object with the inherited
`toString` logs a `Binding_ObjectType` error to the unhandled-exception sink
and returns `"???"`, and an array returns its recursively formatted elements
joined by `", "`. -/
theorem c10_string_formatter_behaviour :
    (∀ v, exceptOk (_stringFormatter v) = stringSafe v) ∧
    _stringFormatter .undefined = .ok ("", []) ∧
    (∀ props gm, JSVal.lookupStr "toString" props = none →
      _stringFormatter (.obj props gm) = .ok ("???", [.objectType])) ∧
    (∀ props gm w, JSVal.lookupStr "toString" props = some w →
      _stringFormatter (.obj props gm) =
        Except.error (.typeError "Cannot convert object to primitive value")) ∧
    (∀ es ss logs, _stringFormatterList es = .ok (ss, logs) →
      _stringFormatter (.arr es) = .ok (String.intercalate ", " ss, logs)) ∧
    _stringFormatter (.arr [.num (.val (Frac.ofInt 1)), .str "a", .undefined])
      = .ok ("1, a, ", []) ∧
    _stringFormatter (.arr [.null]) =
      Except.error (.typeError "Cannot read properties of null (reading toString)") := by
  refine ⟨stringFormatter_ok_eq, rfl, ?_, ?_, ?_, rfl, rfl⟩
  · intro props gm h
    simp [_stringFormatter, h]
  · intro props gm w h
    simp [_stringFormatter, h]
  · intro es ss logs h
    simp [_stringFormatter, h]

/-- C10 amended, witness: `{toString: 5}` is unsafe and throws the
primitive-conversion `TypeError`; `{a: "b"}` keeps the inherited `toString`
and yields `"???"` with the logged error; `["x", "y"]` joins to `"x, y"`. -/
theorem c10_string_formatter_behaviour_witness :
    exceptOk (_stringFormatter
      (.obj [("toString", .num (.val (Frac.ofInt 5)))] none)) = false ∧
    _stringFormatter (.obj [("a", .str "b")] none) = .ok ("???", [.objectType]) ∧
    _stringFormatter (.obj [("toString", .num (.val (Frac.ofInt 5)))] none) =
      Except.error (.typeError "Cannot convert object to primitive value") ∧
    _stringFormatter (.arr [.str "x", .str "y"]) = .ok ("x, y", []) := by
  obtain ⟨hgen, _, hobj, hshadow, harr, _, _⟩ := c10_string_formatter_behaviour
  refine ⟨(hgen _).trans rfl, hobj [("a", .str "b")] none rfl, ?_, ?_⟩
  · exact hshadow [("toString", .num (.val (Frac.ofInt 5)))] none
      (.num (.val (Frac.ofInt 5))) rfl
  · exact harr [.str "x", .str "y"] ["x", "y"] [] rfl

/-- C2.  For a bound instance with at least one consumer and no parent bound,
a second `updateComponents` call on an unchanged source recomputes the same
value, finds it strictly equal to the cached one (`hself` records the
self-`===` of the recomputed value, which holds for every primitive), and
short-circuits: no consumer hook is invoked and no error is logged. -/
theorem c2_update_unchanged_short_circuits
    (b : Bound) (v : JSVal) (b' : Bound) (ns : List (ℕ × JSVal)) (ls : List JsErr)
    (hc : b.consumers ≠ [])
    (hp : b.hasParent = false)
    (hr : b.binding.readerGetValue b.boundParent none = Except.ok v)
    (hself : jsStrictEq v v = true)
    (h1 : b.updateComponents none = Except.ok (b', ns, ls)) :
    b'.updateComponents none = Except.ok (b', [], []) := by
  have hne : b.consumers.isEmpty = false := by
    cases h : b.consumers with
    | nil => exact absurd h hc
    | cons a l => rfl
  simp only [Bound.updateComponents, hne, hp, hr, Bool.false_eq_true, false_and,
    if_false, reduceIte] at h1
  by_cases hch : b.updatedValue = false ∨ jsStrictEq b.lastValue v = false
  · rw [if_pos hch] at h1
    injection h1 with h1
    injection h1 with hA h1
    injection h1 with hB hC
    subst hA
    simp [Bound.updateComponents, hne, hp, hr, hself]
  · rw [if_neg hch] at h1
    injection h1 with h1
    injection h1 with hA h1
    subst hA
    simp [Bound.updateComponents, hne, hp, hr, hch]

/-- C2, witness: after the first update delivered the value 1 to the single
consumer, the second call with the unchanged source delivers nothing. -/
theorem c2_witness :
    boundOneConsumerUpd.updateComponents none =
      Except.ok (boundOneConsumerUpd, [], []) :=
  c2_update_unchanged_short_circuits boundOneConsumer (.num (.val (Frac.ofInt 1)))
    boundOneConsumerUpd [(0, .num (.val (Frac.ofInt 1)))] []
    (by simp [boundOneConsumer]) rfl rfl rfl rfl

/-- C3.  During an `updateComponents` with a changed value and no parent
bound, a consumer whose hook throws (or is missing) has its error caught and
routed to the logging sink; the call still returns normally (no exception
escapes) and every consumer with an accepting hook — in particular each one
after the faulty consumer — receives the new value. -/
theorem c3_consumer_error_isolated
    (b : Bound) (v : JSVal) (c : Consumer) (e : JsErr)
    (hp : b.hasParent = false)
    (hmem : c ∈ b.consumers)
    (he : hookError c = some e)
    (hr : b.binding.readerGetValue b.boundParent none = Except.ok v)
    (hch : b.updatedValue = false ∨ jsStrictEq b.lastValue v = false) :
    b.updateComponents none =
      Except.ok ({ b with updatedValue := true, lastValue := v },
        notifyDeliveries b.consumers v, notifyLogs b.consumers) ∧
    e ∈ notifyLogs b.consumers ∧
    (∀ c' ∈ b.consumers, c'.behavior = .accepts →
      (c'.cid, v) ∈ notifyDeliveries b.consumers v) := by
  have hne : b.consumers.isEmpty = false := by
    cases h : b.consumers with
    | nil => rw [h] at hmem; cases hmem
    | cons a l => rfl
  refine ⟨?_, mem_notifyLogs hmem he, fun c' hm ha => mem_notifyDeliveries v hm ha⟩
  simp only [Bound.updateComponents, hne, hp, hr, Bool.false_eq_true, false_and,
    if_false, reduceIte]
  rw [if_pos hch]

/-- C3, witness: with consumers `[accepts, throws "boom", accepts]`, the
update returns normally, logs the thrown error, and the consumer after the
faulty one still receives the value 1. -/
theorem c3_witness :
    boundFaultyMiddle.updateComponents none =
      Except.ok (boundFaultyMiddleUpd,
        [(0, .num (.val (Frac.ofInt 1))), (2, .num (.val (Frac.ofInt 1)))],
        [JsErr.typeError "boom"]) ∧
    JsErr.typeError "boom" ∈ notifyLogs boundFaultyMiddle.consumers ∧
    (2, JSVal.num (.val (Frac.ofInt 1))) ∈
      notifyDeliveries boundFaultyMiddle.consumers (.num (.val (Frac.ofInt 1))) := by
  obtain ⟨h1, h2, h3⟩ := c3_consumer_error_isolated boundFaultyMiddle
    (.num (.val (Frac.ofInt 1))) ⟨1, .throwsHook (.typeError "boom")⟩
    (.typeError "boom") rfl (by simp [boundFaultyMiddle]) rfl rfl (Or.inl rfl)
  exact ⟨h1, h2, h3 ⟨2, .accepts⟩ (by simp [boundFaultyMiddle]) rfl⟩

/-- C5.  A bound instance with no consumers and no parent does not consult the
reader at all (the call succeeds even though this instance's reader would
throw, and the result does not depend on it) and notifies nobody: it only
clears the validity flag, so `hasValue()` turns false while the stored last
value stays untouched. -/
theorem c5_detached_update_invalidates_only
    (b : Bound) (hc : b.consumers = []) (hp : b.hasParent = false) :
    b.updateComponents none = Except.ok ({ b with updatedValue := false }, [], []) ∧
    ({ b with updatedValue := false } : Bound).hasValue = false ∧
    ({ b with updatedValue := false } : Bound).lastValue = b.lastValue := by
  refine ⟨?_, rfl, rfl⟩
  simp [Bound.updateComponents, hc, hp]

/-- C5, witness: a detached bound whose reader would throw a `TypeError` if
consulted still updates successfully, keeps its stale `lastValue`, and reports
`hasValue() = false` afterwards. -/
theorem c5_witness :
    boundDetached.updateComponents none =
      Except.ok ({ boundDetached with updatedValue := false }, [], []) ∧
    ({ boundDetached with updatedValue := false } : Bound).hasValue = false ∧
    ({ boundDetached with updatedValue := false } : Bound).lastValue = .str "stale" ∧
    boundDetached.binding.readerGetValue boundDetached.boundParent none =
      Except.error (.typeError "Cannot use in operator to search in a primitive") := by
  obtain ⟨h1, h2, h3⟩ := c5_detached_update_invalidates_only boundDetached rfl rfl
  exact ⟨h1, h2, h3.trans rfl, rfl⟩

/-- C7.  (a) After registering `s1` and then `s2` under names equal up to
case, `find` under any casing of that name returns `s2`, and no second slot
was created (the services map kept its size: the existing reference's target
was replaced in place).  (b) Registering under a name with no existing slot
appends a new restricted, event-propagating reference under the uppercased
name. -/
theorem c7_service_register_replace_or_create :
    (∀ (s1 s2 : ManagedService) (c c1 c2 : ServiceContainer) (n : String),
      jsToUpper s1.name = jsToUpper s2.name →
      jsToUpper s2.name ≠ "" →
      jsToUpper n = jsToUpper s1.name →
      s1.register c = Except.ok c1 →
      s2.register c1 = Except.ok c2 →
      ManagedService.find n c2 = some s2.sid ∧
        c2.services.length = c1.services.length) ∧
    (∀ (s : ManagedService) (c : ServiceContainer),
      jsToUpper s.name ≠ "" →
      alistLookup (jsToUpper s.name) c.services = none →
      s.register c =
        Except.ok ⟨c.services ++ [(jsToUpper s.name, ⟨some s.sid, true, true⟩)]⟩) := by
  constructor
  · intro s1 s2 c c1 c2 n h12 hnb hn hreg1 hreg2
    have hnb1 : jsToUpper s1.name ≠ "" := by rw [h12]; exact hnb
    unfold ManagedService.register at hreg1 hreg2
    rw [if_neg hnb1] at hreg1
    rw [← h12, if_neg hnb1] at hreg2
    cases hl : alistLookup (jsToUpper s1.name) c.services with
    | none =>
      simp only [hl] at hreg1
      injection hreg1 with hreg1
      subst hreg1
      simp only [alistLookup_append_of_none _ hl] at hreg2
      injection hreg2 with hreg2
      subst hreg2
      refine ⟨?_, alistUpdate_length _ _ _⟩
      unfold ManagedService.find
      rw [hn]
      simp only [alistLookup_update_self, alistLookup_append_of_none _ hl,
        Option.map_some']
      rfl
    | some r =>
      simp only [hl] at hreg1
      injection hreg1 with hreg1
      subst hreg1
      simp only [alistLookup_update_self, hl, Option.map_some'] at hreg2
      injection hreg2 with hreg2
      subst hreg2
      refine ⟨?_, alistUpdate_length _ _ _⟩
      unfold ManagedService.find
      rw [hn]
      simp only [alistLookup_update_self, hl, Option.map_some']
      rfl
  · intro s c hnb hl
    unfold ManagedService.register
    rw [if_neg hnb, hl]

/-- C7, witness: registering service 1 as `"X"` then service 2 as `"x"` makes
`find "x"` return service 2 without growing the map; the first registration
created the new restricted slot under `"X"`. -/
theorem c7_witness :
    ManagedService.find "x" ⟨[("X", ⟨some 2, true, true⟩)]⟩ = some 2 ∧
    ([("X", (⟨some 2, true, true⟩ : ServiceRef))]).length =
      ([("X", (⟨some 1, true, true⟩ : ServiceRef))]).length ∧
    ManagedService.register ⟨1, "X"⟩ ⟨[]⟩ =
      Except.ok ⟨[("X", ⟨some 1, true, true⟩)]⟩ := by
  obtain ⟨hf, hl⟩ := c7_service_register_replace_or_create.1 ⟨1, "X"⟩ ⟨2, "x"⟩
    ⟨[]⟩ ⟨[("X", ⟨some 1, true, true⟩)]⟩ ⟨[("X", ⟨some 2, true, true⟩)]⟩ "x"
    (by decide) (by decide) (by decide) rfl rfl
  exact ⟨hf, hl, c7_service_register_replace_or_create.2 ⟨1, "X"⟩ ⟨[]⟩ (by decide) rfl⟩

/-- C8.  With a preset modal class: a `ShowModal` child event sets `modal` to
a freshly constructed instance of the preset class (the fresh identifier,
alloc counter bumped); a `CloseModal` child event clears `modal`; and invoking
the active render callback proxy with undefined output clears `modal`,
whatever the underlying render-context callback returns. -/
theorem c8_modal_show_close_transitions
    (c : UIModalController)
    (hclass : c.hasModalClass = true)
    (hrc : c.renderCallbackSet = true) :
    ((c.handleChildEvent (.component "ShowModal")).1.modal = some c.nextId ∧
      (c.handleChildEvent (.component "ShowModal")).1.nextId = c.nextId + 1) ∧
    (c.handleChildEvent (.component "CloseModal")).1.modal = none ∧
    (∀ nextCb, (c.invokeCallbackProxy none nextCb).1.modal = none) := by
  refine ⟨⟨?_, ?_⟩, ?_, fun nextCb => ?_⟩ <;>
    simp [UIModalController.handleChildEvent, UIModalController.showModal,
      UIModalController.closeModal, UIModalController.invokeCallbackProxy, hclass, hrc]

/-- C8, witness: the concrete controller shows a fresh modal instance on
`ShowModal`, drops it on `CloseModal`, and drops it when the render proxy is
invoked with undefined output. -/
theorem c8_witness :
    (modalCtl.handleChildEvent (.component "ShowModal")).1.modal = some 7 ∧
    (modalCtl.handleChildEvent (.component "ShowModal")).1.nextId = 8 ∧
    (modalCtl.handleChildEvent (.component "CloseModal")).1.modal = none ∧
    (modalCtl.invokeCallbackProxy none true).1.modal = none := by
  obtain ⟨⟨h1, h2⟩, h3, h4⟩ := c8_modal_show_close_transitions modalCtl rfl rfl
  exact ⟨h1, h2, h3, h4 true⟩

end Typescene
